import Mathlib

/-!
Verification of the umock library (a minimal mocking/stubbing library for
MicroPython/Pyodide) against its natural-language specification.

The development shallowly embeds the relevant parts of `umock.py`:

* `Mock` / `AsyncMock`: call-recording stand-in objects with attribute
  auto-vivification, spec-constrained attribute reads and configurable
  response behaviour (`side_effect`, `return_value`).  Mock objects are
  mutable and identity-bearing, so they live in an explicit heap of
  numbered objects; attribute dictionaries (`self.__dict__`) are modelled
  as insertion-ordered association lists.
* `patch` / `patch_target`: scoped substitution of a value at a target
  path (`"module"` or `"module:attr.chain"`) inside an object registry
  modelling `sys.modules` plus the importable-module table.

Python specifics that matter and are modelled faithfully:

* `Mock.__getattr__` returns `self.__dict__.get(name)` (i.e. `None` when
  the slot is absent) for names that start with an underscore or are in
  `_RESERVED_MOCK_ATTRIBUTES`; consequently `hasattr(self, "return_value")`
  is always true.
* `Mock.__init__` guards `return_value`, `side_effect` and `spec` with
  plain truthiness tests (`if return_value:` etc.).
* `Mock` defines no `__setattr__`, so attribute assignment stores directly
  into the instance dictionary — except for the getter-only properties the
  class defines (`call_count`, `called`, `call_args`, `call_args_list`,
  and the `await_` counterparts), which are data descriptors for which
  Python's default `setattr` raises `AttributeError`.
* A `StopIteration` escaping the synchronous `Mock.__call__` propagates
  as-is, while one escaping the coroutine `AsyncMock.__call__` is converted
  by the runtime (PEP 479) into `RuntimeError("coroutine raised
  StopIteration")`, exactly as the repository's own async test asserts.

Modelling restrictions (documented where they apply): callable
side-effects are pure functions drawn from a function environment; mock
references used as side-effects of other mocks (which would recurse
through the heap) are outside the embedding, as is user reassignment of
the internal `_spec` and `_calls` slots.
-/

namespace UMock

/-! ### Association-list utilities

Python dictionaries (`self.__dict__`, `sys.modules`) are modelled as
insertion-ordered association lists: updating an existing key replaces the
value in place, a new key is appended at the end. -/

/-- Lookup in an association list (Python `d.get(k)`). -/
def lookupA {α β : Type} [DecidableEq α] : List (α × β) → α → Option β
  | [], _ => Option.none
  | (k', v) :: rest, k => if k' = k then some v else lookupA rest k

/-- Update/insert in an association list (Python `d[k] = v`): replaces the
binding in place when the key is present, appends otherwise. -/
def insertA {α β : Type} [DecidableEq α] : List (α × β) → α → β → List (α × β)
  | [], k, v => [(k, v)]
  | (k', v') :: rest, k, v =>
    if k' = k then (k, v) :: rest else (k', v') :: insertA rest k v

/-! ### Error model -/

/-- Kinds of Python exceptions surfaced by the embedded code. -/
inductive ErrKind where
  | attributeError
  | typeError
  | stopIteration
  | runtimeError
  | assertionError
  | importError
deriving DecidableEq, Repr

/-- A raised Python exception: a kind plus a human-readable message. -/
structure PyError where
  kind : ErrKind
  msg : String
deriving DecidableEq, Repr

/-- Check whether an `Except` computation succeeded. -/
def isOkE {ε α : Type} : Except ε α → Bool
  | .ok _ => true
  | .error _ => false

/-! ### Values

Python values flowing through the mock model.  Mutable mock objects are
referenced by heap id (`ref`); lists and iterators carry their elements
directly (the iterators produced by `iter(...)` in `Mock.__init__` are
reachable only through the mock's `side_effect` slot, so advancing them in
place is sound). -/

inductive Value where
  | none
  | int (n : Int)
  | str (s : String)
  | bool (b : Bool)
  | ref (id : Nat)
  | excType (k : ErrKind)
  | exc (k : ErrKind) (msg : String)
  | list (vs : List Value)
  | iter (rest : List Value)
  | fn (fid : Nat)
deriving Repr

-- Boolean equality on values; the nested `list`/`iter` payloads prevent
-- automatic derivation of decidable equality, so it is spelled out.
mutual

def Value.beq : Value → Value → Bool
  | .none, .none => true
  | .int a, .int b => a == b
  | .str a, .str b => a == b
  | .bool a, .bool b => a == b
  | .ref a, .ref b => a == b
  | .excType a, .excType b => a == b
  | .exc a m, .exc b m' => a == b && m == m'
  | .list xs, .list ys => Value.beqL xs ys
  | .iter xs, .iter ys => Value.beqL xs ys
  | .fn a, .fn b => a == b
  | _, _ => false

def Value.beqL : List Value → List Value → Bool
  | [], [] => true
  | x :: xs, y :: ys => Value.beq x y && Value.beqL xs ys
  | _, _ => false

end

mutual

theorem Value.beq_refl : ∀ a : Value, Value.beq a a = true
  | .none => rfl
  | .int _ => by simp [Value.beq]
  | .str _ => by simp [Value.beq]
  | .bool _ => by simp [Value.beq]
  | .ref _ => by simp [Value.beq]
  | .excType _ => by simp [Value.beq]
  | .exc _ _ => by simp [Value.beq]
  | .list xs => by simp [Value.beq, Value.beqL_refl xs]
  | .iter xs => by simp [Value.beq, Value.beqL_refl xs]
  | .fn _ => by simp [Value.beq]

theorem Value.beqL_refl : ∀ xs : List Value, Value.beqL xs xs = true
  | [] => rfl
  | x :: xs => by simp [Value.beqL, Value.beq_refl x, Value.beqL_refl xs]

end

mutual

theorem Value.eq_of_beq : ∀ a b : Value, Value.beq a b = true → a = b
  | .none, .none, _ => rfl
  | .int _, .int _, h => by simp [Value.beq] at h; simp [h]
  | .str _, .str _, h => by simp [Value.beq] at h; simp [h]
  | .bool _, .bool _, h => by simp [Value.beq] at h; simp [h]
  | .ref _, .ref _, h => by simp [Value.beq] at h; simp [h]
  | .excType _, .excType _, h => by simp [Value.beq] at h; simp [h]
  | .exc _ _, .exc _ _, h => by simp [Value.beq] at h; simp [h.1, h.2]
  | .list xs, .list ys, h => by
      simp [Value.beq] at h
      simp [Value.eqL_of_beqL xs ys h]
  | .iter xs, .iter ys, h => by
      simp [Value.beq] at h
      simp [Value.eqL_of_beqL xs ys h]
  | .fn _, .fn _, h => by simp [Value.beq] at h; simp [h]

theorem Value.eqL_of_beqL : ∀ xs ys : List Value, Value.beqL xs ys = true → xs = ys
  | [], [], _ => rfl
  | x :: xs, y :: ys, h => by
      simp [Value.beqL] at h
      simp [Value.eq_of_beq x y h.1, Value.eqL_of_beqL xs ys h.2]

end

instance : DecidableEq Value := fun a b =>
  if h : Value.beq a b = true then .isTrue (Value.eq_of_beq a b h)
  else .isFalse (fun he => h (he ▸ Value.beq_refl a))

/-- Python truthiness of a value (`if spec:`, `if return_value:` …). -/
def Value.truthy : Value → Bool
  | .none => false
  | .int n => n ≠ 0
  | .str s => s ≠ ""
  | .bool b => b
  | .ref _ => true
  | .excType _ => true
  | .exc _ _ => true
  | .list vs => !vs.isEmpty
  | .iter _ => true
  | .fn _ => true

/-! ### Mock objects

A heap of numbered mock objects.  A `MockObj` is the state of one
`Mock`/`AsyncMock` instance.  Its `self.__dict__` is modelled by dedicated
slots for the bookkeeping names the implementation itself writes
(`_spec`, `side_effect`, `return_value`, `_mock_value`, `_calls`) plus the
ordered `attrs` list for every other name (spec children, auto-vivified
children, user attributes).  The `_spec` and `_calls` slots hold list
objects that the embedding keeps in structured form; user reassignment of
those two internal names is outside the model. -/

/-- One recorded invocation: `(args, kwargs)` as appended to `self._calls`. -/
structure CallEntry where
  args : List Value
  kwargs : List (String × Value)
deriving DecidableEq, Repr

/-- Which class the object was instantiated from. -/
inductive MKind where
  | sync
  | async
deriving DecidableEq, Repr

/-- The dynamic type a mock reports through `__class__`.  Python sets it to
the instantiated class at construction; `umock.py` contains no assignment
to `__class__`, so it is never changed afterwards. -/
inductive PyType where
  | mockType
  | asyncMockType
  | userType (name : String)
deriving DecidableEq, Repr

/-- State of one `Mock` / `AsyncMock` instance. -/
structure MockObj where
  kind : MKind
  /-- reported `__class__` -/
  reportedType : PyType
  /-- `self.__dict__["_spec"]`, when present -/
  spec : Option (List String)
  /-- `self.__dict__["side_effect"]`, when present -/
  sideEffect : Option Value
  /-- `self.__dict__["return_value"]`, when present -/
  returnValue : Option Value
  /-- `self.__dict__["_mock_value"]`, when present -/
  mockValue : Option Value
  /-- `self.__dict__["_calls"]` (resp. `_awaits`); created by `reset_mock`
  during `__init__`, so always present -/
  calls : List CallEntry
  /-- every other `self.__dict__` entry, in insertion order -/
  attrs : List (String × Value)
deriving DecidableEq, Repr

/-- The state `Mock()` / `AsyncMock()` leaves a fresh unconfigured instance
in: nothing stored except the empty `_calls` list. -/
def newMockObj (kind : MKind) : MockObj :=
  { kind := kind
    reportedType := match kind with
      | .sync => .mockType
      | .async => .asyncMockType
    spec := Option.none
    sideEffect := Option.none
    returnValue := Option.none
    mockValue := Option.none
    calls := []
    attrs := [] }

/-- The heap of mock objects: association list from id to object plus the
next fresh id. -/
structure Heap where
  objs : List (Nat × MockObj)
  next : Nat
deriving DecidableEq, Repr

def Heap.empty : Heap := { objs := [], next := 0 }

def Heap.get (h : Heap) (i : Nat) : Option MockObj := lookupA h.objs i

def Heap.set (h : Heap) (i : Nat) (m : MockObj) : Heap :=
  { h with objs := insertA h.objs i m }

/-- Allocate a fresh object, returning the new heap and the fresh id. -/
def Heap.alloc (h : Heap) (m : MockObj) : Heap × Nat :=
  ({ objs := h.objs ++ [(h.next, m)], next := h.next + 1 }, h.next)

/-- Membership in `_RESERVED_MOCK_ATTRIBUTES`. -/
def isReservedName (s : String) : Bool :=
  s = "side_effect" || s = "return_value"

/-- `name.startswith("_")`. -/
def isInternalName (s : String) : Bool :=
  match s.data with
  | [] => false
  | c :: _ => c = '_'

/-- `self.__dict__.get(name)` for the slot-backed names, `attrs` otherwise.
(`_spec` and `_calls` hold structured list objects reachable only through
dedicated operations, so they read as absent here; no code path used by
the claims reads those two names through `__getattr__`.) -/
def MockObj.dictGet (m : MockObj) (name : String) : Option Value :=
  if name = "side_effect" then m.sideEffect
  else if name = "return_value" then m.returnValue
  else if name = "_mock_value" then m.mockValue
  else lookupA m.attrs name

/-- A raw store into `self.__dict__[name]` (the dictionary write that a
successful `setattr` performs). -/
def MockObj.dictSet (m : MockObj) (name : String) (v : Value) : MockObj :=
  if name = "side_effect" then { m with sideEffect := some v }
  else if name = "return_value" then { m with returnValue := some v }
  else if name = "_mock_value" then { m with mockValue := some v }
  else { m with attrs := insertA m.attrs name v }

/-- `Mock.__getattr__` (lines 306–329) / `AsyncMock.__getattr__`
(lines 570–595): underscore-prefixed and reserved names read
`self.__dict__.get(name)` (returning `None` rather than raising when the
slot is absent); existing attributes are returned; otherwise a spec, if
present, gates the name, and failing that a fresh child of the same class
is created, stored under the name and returned. -/
def mockGetattr (h : Heap) (i : Nat) (name : String) :
    Heap × Except PyError Value :=
  match h.get i with
  | Option.none => (h, .error ⟨.attributeError, "dangling mock reference"⟩)
  | some m =>
    if isInternalName name || isReservedName name then
      (h, .ok ((m.dictGet name).getD .none))
    else
      match lookupA m.attrs name with
      | some v => (h, .ok v)
      | Option.none =>
        if m.spec.isSome ∧ name ∉ m.spec.getD [] then
          (h, .error ⟨.attributeError, "Mock object has no attribute."⟩)
        else
          let (h1, j) := h.alloc (newMockObj m.kind)
          (h1.set i { m with attrs := insertA m.attrs name (.ref j) },
            .ok (.ref j))

/-- The getter-only properties each class defines (`@property` with no
setter): they are data descriptors, so Python's default `object.__setattr__`
raises `AttributeError` when one of these names is assigned, and reads of
them resolve through the class before `__getattr__` is consulted. -/
def propertyNames : MKind → List String
  | .sync => ["call_count", "called", "call_args", "call_args_list"]
  | .async => ["await_count", "awaited", "await_args", "await_args_list"]

/-- `setattr(obj, name, v)` on a mock object in the heap: `Mock` defines no
`__setattr__`, so the value is stored into the instance dictionary for
every name except the class's getter-only properties, whose data
descriptors make the default `setattr` raise `AttributeError`.  (The other
class-level callables — `reset_mock`, the `assert_*` methods — are
non-data descriptors, which an instance-dictionary entry shadows, so
storing under those names succeeds as in Python.) -/
def mockSetattr (h : Heap) (i : Nat) (name : String) (v : Value) :
    Heap × Except PyError Unit :=
  match h.get i with
  | Option.none => (h, .error ⟨.attributeError, "dangling mock reference"⟩)
  | some m =>
    if name ∈ propertyNames m.kind then
      (h, .error ⟨.attributeError, "property has no setter"⟩)
    else
      (h.set i (m.dictSet name v), .ok ())

/-- `getattr(self, name)` for underscore/reserved names only: per
`Mock.__getattr__` this returns `self.__dict__.get(name)` and can never
raise, which is what makes `hasattr(self, "return_value")` in
`Mock.__call__` unconditionally true. -/
def MockObj.getattrReserved (m : MockObj) (name : String) :
    Except PyError Value :=
  .ok ((m.dictGet name).getD .none)

/-- `hasattr(self, name)` for underscore/reserved names. -/
def MockObj.hasattrReserved (m : MockObj) (name : String) : Bool :=
  isOkE (m.getattrReserved name)

/-! ### Construction (`Mock.__init__` lines 94–156, `AsyncMock.__init__`
lines 354–417) -/

/-- The `spec` argument of the constructors.  A live object passed as spec
is represented by the class it reports (`clsName`), whether it is an
instance rather than a class (`isInstance`), and the name list the
constructor's comprehension derives from it (`dir(spec)` filtered to
non-underscore, non-callable, non-awaitable members). -/
inductive SpecArg where
  | noSpec
  | names (ns : List String)
  | fromObj (clsName : String) (isInstance : Bool) (derived : List String)
deriving DecidableEq, Repr

/-- Truthiness of the `spec` argument (`if spec:`): `None` and the empty
list are falsy, objects are truthy. -/
def SpecArg.truthy : SpecArg → Bool
  | .noSpec => false
  | .names ns => !ns.isEmpty
  | .fromObj _ _ _ => true

/-- The name list bound to `self._spec`. -/
def SpecArg.specList : SpecArg → List String
  | .noSpec => []
  | .names ns => ns
  | .fromObj _ _ ds => ds

/-- The loop `for name in self._spec: setattr(self, name, Mock())`: one
fresh synchronous `Mock()` per spec name — in `AsyncMock.__init__` too the
children are created by `Mock()`, not `AsyncMock()`. -/
def allocSpecChildren (h : Heap) (ns : List String)
    (attrs : List (String × Value)) : Heap × List (String × Value) :=
  match ns with
  | [] => (h, attrs)
  | n :: rest =>
    let (h1, j) := h.alloc (newMockObj .sync)
    allocSpecChildren h1 rest (insertA attrs n (.ref j))

/-- `Mock.__init__` / `AsyncMock.__init__`: store `_spec` and eagerly
create spec children when `spec` is truthy; store `return_value` only when
truthy (`if return_value:`); store `side_effect` only when truthy, turning
`str`/`list`/`tuple`/`set`/`dict` arguments into iterators; run
`reset_mock`; then apply the extra keyword arguments as attributes.
Returns the updated heap and the new object's id. -/
def mkMock (h : Heap) (kind : MKind) (spec : SpecArg) (sideEffect : Value)
    (returnValue : Value) (kwargs : List (String × Value)) : Heap × Nat :=
  let m0 := newMockObj kind
  let (h1, m1) :=
    if spec.truthy then
      let ns := spec.specList
      let (h', children) := allocSpecChildren h ns []
      (h', { m0 with spec := some ns, attrs := children })
    else (h, m0)
  let m2 :=
    if returnValue.truthy then { m1 with returnValue := some returnValue }
    else m1
  let m3 :=
    if sideEffect.truthy then
      match sideEffect with
      | .list vs => { m2 with sideEffect := some (.iter vs) }
      | .str s =>
        { m2 with sideEffect := some (.iter (s.data.map fun c => .str c.toString)) }
      | se => { m2 with sideEffect := some se }
    else m2
  let m4 := { m3 with calls := [] }
  let m5 := kwargs.foldl (fun m kv => m.dictSet kv.1 kv.2) m4
  h1.alloc m5

/-- `reset_mock` (lines 158–167): `self._calls = []`; configuration and
attributes are untouched. -/
def mockReset (h : Heap) (i : Nat) : Heap :=
  match h.get i with
  | Option.none => h
  | some m => h.set i { m with calls := [] }

/-- `call_count` / `await_count`: `len(self._calls)`. -/
def Heap.callCount (h : Heap) (i : Nat) : Option Nat :=
  (h.get i).map fun m => m.calls.length

/-! ### Invocation (`Mock.__call__` lines 270–304, `AsyncMock.__call__`
lines 533–568)

The two bodies are textually parallel; they differ in the class of the
lazily created default result and in what an exhausted iterator
side-effect raises: the synchronous `next(...)` lets `StopIteration`
propagate out of the plain function `Mock.__call__`, while inside the
coroutine `AsyncMock.__call__` the runtime converts the escaping
`StopIteration` into `RuntimeError("coroutine raised StopIteration")`
(PEP 479), exactly as asserted by the repository's own async test.

Callable side-effects are drawn from a pure function environment; a mock
reference used as the side-effect of another mock (which would recurse
through the heap) is outside this embedding. -/

/-- Environment giving meaning to `Value.fn` function identifiers. -/
def FEnv : Type := Nat → List Value → List (String × Value) → Except PyError Value

/-- The error an exhausted iterable side-effect produces. -/
def exhaustionError : MKind → PyError
  | .sync => ⟨.stopIteration, ""⟩
  | .async => ⟨.runtimeError, "coroutine raised StopIteration"⟩

/-- Is the value callable?  Plain functions and exception classes are;
exception classes are dispatched before this test in `__call__`.  Mock
references (also callable in Python) are outside this embedding's
side-effect dispatch. -/
def Value.isCallable : Value → Bool
  | .fn _ => true
  | .excType _ => true
  | _ => false

/-- `Mock.__call__` / `AsyncMock.__call__`: unconditionally append
`(args, kwargs)` to `self._calls`, then dispatch on `side_effect` if that
key is in `self.__dict__` (exception class → raise an instance; exception
instance → raise it; iterator → next value or the exhaustion error;
callable → delegate; otherwise `TypeError`); else the
`hasattr(self, "return_value")` test — always true, see
`MockObj.getattrReserved` — returns `self.return_value`
(`self.__dict__.get("return_value")`, i.e. `None` when unset).  The
further `_mock_value` branch of the source is retained below but is
unreachable. -/
def mockCall (fenv : FEnv) (h : Heap) (i : Nat) (args : List Value)
    (kwargs : List (String × Value)) : Heap × Except PyError Value :=
  match h.get i with
  | Option.none => (h, .error ⟨.typeError, "object is not callable"⟩)
  | some m =>
    let m1 := { m with calls := m.calls ++ [({ args := args, kwargs := kwargs } : CallEntry)] }
    match m1.sideEffect with
    | some se =>
      match se with
      | .excType k => (h.set i m1, .error ⟨k, ""⟩)
      | .exc k msg => (h.set i m1, .error ⟨k, msg⟩)
      | .iter rest =>
        match rest with
        | v :: vs =>
          (h.set i { m1 with sideEffect := some (.iter vs) }, .ok v)
        | [] => (h.set i m1, .error (exhaustionError m1.kind))
      | .fn fid => (h.set i m1, fenv fid args kwargs)
      | _ =>
        (h.set i m1,
          .error ⟨.typeError, "The mock object has an invalid side_effect."⟩)
    | Option.none =>
      if m1.hasattrReserved "return_value" then
        (h.set i m1, m1.getattrReserved "return_value")
      else if m1.hasattrReserved "_mock_value" then
        (h.set i m1, m1.getattrReserved "_mock_value")
      else
        let (h2, j) := (h.set i m1).alloc (newMockObj m1.kind)
        (h2.set i (m1.dictSet "_mock_value" (.ref j)), .ok (.ref j))

/-- Run a sequence of invocations, discarding the results. -/
def runCalls (fenv : FEnv) (h : Heap) (i : Nat) :
    List (List Value × List (String × Value)) → Heap
  | [] => h
  | (a, k) :: rest => runCalls fenv (mockCall fenv h i a k).1 i rest

/-! ### `assert_has_calls` (lines 239–260) -/

/-- `assert_has_calls(calls, any_order)`: first the length guard; with
`any_order` a membership check for every expected entry; otherwise a
positional comparison of `self._calls[i]` with `calls[i]` for each index
of `calls`.  Success is `ok`, a failed `assert` raises `AssertionError`. -/
def assertHasCalls (log : List CallEntry) (calls : List CallEntry)
    (anyOrder : Bool) : Except PyError Unit :=
  if calls.length ≤ log.length then
    if anyOrder then
      if calls.all (fun c => decide (c ∈ log)) then .ok ()
      else .error ⟨.assertionError, "expected call not found"⟩
    else
      if calls.enum.all
          (fun ic => decide (log.getD ic.1 (⟨[], []⟩ : CallEntry) = ic.2)) then
        .ok ()
      else .error ⟨.assertionError, "call mismatch at index"⟩
  else .error ⟨.assertionError, "expected more calls than were made"⟩

/-! ### The object registry and `patch_target` (lines 653–688)

For the patching claims the relevant state is Python's module registry
(`sys.modules`), the host's importable modules, and a heap of attribute-
bearing objects (modules, classes, functions, mocks — all uniform for the
purposes of `getattr`/`setattr` traversal).  A target path
`"module.sub:obj.attr"` is represented already split at the colon and the
dots, mirroring `target.split(":")` and `attributes.split(".")`. -/

/-- Values in the registry model. -/
inductive PVal where
  | none
  | int (n : Int)
  | str (s : String)
  | obj (id : Nat)
deriving DecidableEq, Repr

/-- Python truthiness for registry values (`if not parent:`). -/
def PVal.truthy : PVal → Bool
  | .none => false
  | .int n => n ≠ 0
  | .str s => s ≠ ""
  | .obj _ => true

/-- An attribute-bearing registry object. -/
structure PObj where
  attrs : List (String × PVal)
deriving DecidableEq, Repr

/-- The registry: object heap, `sys.modules`, and the table of modules
the host can import (module path → heap id of the module object). -/
structure Registry where
  heap : List (Nat × PObj)
  next : Nat
  sysModules : List (String × PVal)
  importable : List (String × Nat)
deriving DecidableEq, Repr

/-- A parsed target path: `"a.b.c"` (no colon) names a module;
`"a.b:c.d"` carries the module path and the dot-split attribute chain. -/
inductive Target where
  | module (path : String)
  | attr (modulePath : String) (chain : List String)
deriving DecidableEq, Repr

/-- `getattr(v, name)` in the registry: objects look the name up in their
attribute dictionary, anything else (and a missing name) raises
`AttributeError`. -/
def getattrR (reg : Registry) (v : PVal) (name : String) :
    Except PyError PVal :=
  match v with
  | .obj id =>
    match lookupA reg.heap id with
    | some o =>
      match lookupA o.attrs name with
      | some w => .ok w
      | Option.none => .error ⟨.attributeError, "object has no attribute"⟩
    | Option.none => .error ⟨.attributeError, "dangling object reference"⟩
  | _ => .error ⟨.attributeError, "object has no attribute"⟩

/-- `setattr(v, name, w)` in the registry. -/
def setattrR (reg : Registry) (v : PVal) (name : String) (w : PVal) :
    Except PyError Registry :=
  match v with
  | .obj id =>
    match lookupA reg.heap id with
    | some o =>
      .ok { reg with heap := insertA reg.heap id { o with attrs := insertA o.attrs name w } }
    | Option.none => .error ⟨.attributeError, "dangling object reference"⟩
  | _ => .error ⟨.attributeError, "cannot set attribute"⟩

/-- `import_module(path)` (lines 53–71): acquire the module object from
the host's import system, registering it in `sys.modules` as real import
does; fail when the path is not importable. -/
def importModule (reg : Registry) (path : String) :
    Registry × Except PyError PVal :=
  match lookupA reg.importable path with
  | some oid =>
    ({ reg with sysModules := insertA reg.sysModules path (.obj oid) },
      .ok (.obj oid))
  | Option.none => (reg, .error ⟨.importError, "no module named"⟩)

/-- `for part in parts: parent = getattr(parent, part)`. -/
def traverseChain (reg : Registry) : PVal → List String → Except PyError PVal
  | v, [] => .ok v
  | v, p :: ps =>
    match getattrR reg v p with
    | .ok v' => traverseChain reg v' ps
    | .error e => .error e

/-- `sys.modules.get(module_name)` followed by
`if not parent: parent = import_module(module_name)`. -/
def acquireModule (reg : Registry) (path : String) :
    Registry × Except PyError PVal :=
  match lookupA reg.sysModules path with
  | some pv => if pv.truthy then (reg, .ok pv) else importModule reg path
  | Option.none => importModule reg path

/-- `patch_target(target, replacement)` (lines 653–688).  No colon: the
whole path names a module; capture the registered module (importing it if
absent) and register the replacement under the path.  With a colon:
acquire the module, walk all but the last chain segment by `getattr`,
capture `getattr(parent, target_name)` and replace it with `setattr`.
Returns the captured previous value. -/
def patchTarget (reg : Registry) (t : Target) (repl : PVal) :
    Registry × Except PyError PVal :=
  match t with
  | .module path =>
    match lookupA reg.sysModules path with
    | some old =>
      ({ reg with sysModules := insertA reg.sysModules path repl }, .ok old)
    | Option.none =>
      match importModule reg path with
      | (reg1, .ok old) =>
        ({ reg1 with sysModules := insertA reg1.sysModules path repl }, .ok old)
      | (reg1, .error e) => (reg1, .error e)
  | .attr modulePath chain =>
    let targetName := chain.getLastD ""
    match acquireModule reg modulePath with
    | (reg1, .error e) => (reg1, .error e)
    | (reg1, .ok parent0) =>
      match traverseChain reg1 parent0 chain.dropLast with
      | .error e => (reg1, .error e)
      | .ok parent =>
        match getattrR reg1 parent targetName with
        | .error e => (reg1, .error e)
        | .ok old =>
          match setattrR reg1 parent targetName repl with
          | .ok reg2 => (reg2, .ok old)
          | .error e => (reg1, .error e)

/-- The registry state after `setattr(parent, name, repl)` on the object
`pid` holding `pobj`: exactly what the colon branch of `patch_target`
leaves behind. -/
def Registry.patchAt (reg : Registry) (pid : Nat) (pobj : PObj)
    (name : String) (repl : PVal) : Registry :=
  { reg with heap := insertA reg.heap pid { pobj with attrs := insertA pobj.attrs name repl } }

/-- Re-resolution of a target path, value only: the module registered
under the path (importing if absent), respectively the module acquired as
in `patch_target` followed by the full attribute chain.  (The library's
`resolve_target` helper is exercised by the repository's tests but absent
from `src/umock.py`; this mirrors the spec's `resolve(path)` operation and
is used only to state what "re-resolving the path" returns.) -/
def resolveValue (reg : Registry) (t : Target) : Except PyError PVal :=
  match t with
  | .module path =>
    match lookupA reg.sysModules path with
    | some v => .ok v
    | Option.none => (importModule reg path).2
  | .attr modulePath chain =>
    match (acquireModule reg modulePath).2 with
    | .error e => .error e
    | .ok pv => traverseChain reg pv chain

/-! ### The `patch` controller (lines 598–650) -/

/-- The constructor arguments of a `patch` instance: target, optional
explicit replacement (`PVal.none` when absent) and the keyword options for
a synthesized default `Mock`. -/
structure PatchSpec where
  target : Target
  new : PVal
  kwargs : List (String × PVal)
deriving DecidableEq, Repr

/-- `self.new = self.new or Mock(**self.kwargs)` from `patch.__enter__`:
keep a truthy replacement, otherwise synthesize a fresh `Mock` — modelled
as a fresh registry object carrying the keyword options as attributes. -/
def patchEnterNew (reg : Registry) (p : PatchSpec) : Registry × PVal :=
  if p.new.truthy then (reg, p.new)
  else
    let mockObj : PObj := { attrs := p.kwargs }
    let reg' : Registry :=
      { reg with heap := reg.heap ++ [(reg.next, mockObj)], next := reg.next + 1 }
    (reg', .obj reg.next)

/-- The function produced by decorating `func` with `patch`
(`patch.__call__` lines 620–632): per invocation, enter a fresh patch
(synthesize the replacement if needed, install it via `patch_target`,
capturing the old value), call `func` with the replacement appended to the
positional arguments, then — leaving the `with` block on the normal and on
the raising path alike — restore via `patch_target` with the captured
value and propagate `func`'s result or exception.  An exception raised by
the restoring `patch_target` itself propagates (as in Python, where an
exception escaping `__exit__` replaces the in-flight one).  The wrapped
function is modelled as a pure function of its positional arguments. -/
def patchWrapper (reg : Registry) (p : PatchSpec)
    (func : List PVal → Except PyError PVal) (args : List PVal) :
    Registry × Except PyError PVal :=
  let (reg1, newV) := patchEnterNew reg p
  match patchTarget reg1 p.target newV with
  | (reg2, .error e) => (reg2, .error e)
  | (reg2, .ok old) =>
    let r := func (args ++ [newV])
    match patchTarget reg2 p.target old with
    | (reg3, .ok _) => (reg3, r)
    | (reg3, .error e) => (reg3, .error e)

/-- A trivial function environment used for concrete evaluations. -/
def fenv0 : FEnv := fun _ _ _ => Except.ok Value.none

instance {ε α : Type} [DecidableEq ε] [DecidableEq α] :
    DecidableEq (Except ε α) := fun a b =>
  match a, b with
  | .ok x, .ok y =>
    if h : x = y then .isTrue (by simp [h]) else .isFalse (by simp [h])
  | .error e, .error e' =>
    if h : e = e' then .isTrue (by simp [h]) else .isFalse (by simp [h])
  | .ok _, .error _ => .isFalse (by simp)
  | .error _, .ok _ => .isFalse (by simp)

/-! ### Concrete registry fixtures used by witnesses -/

/-- A registry object holding a single attribute `f = 3`. -/
def pobjF3 : PObj := { attrs := [("f", PVal.int 3)] }

/-- Registry fixture: module `m` (object `0`) with `m.f = 3`. -/
def regMF3 : Registry :=
  { heap := [(0, pobjF3)], next := 1, sysModules := [("m", PVal.obj 0)],
    importable := [] }

/-- Registry fixture: the module path `m` registered to the plain value `5`. -/
def regMod5 : Registry :=
  { heap := [], next := 0, sysModules := [("m", PVal.int 5)], importable := [] }

/-- `regMod5` after installing `9` at the module path `m`. -/
def regMod9 : Registry :=
  { heap := [], next := 0, sysModules := [("m", PVal.int 9)], importable := [] }

/-- A `patch` configured for target `m:f` with explicit replacement `9`. -/
def pSpecF9 : PatchSpec :=
  { target := .attr "m" ["f"], new := .int 9, kwargs := [] }

/-! ## Theorems

First the association-list and heap lemmas the claim theorems build on,
then the claims. -/

theorem lookupA_insertA_self {α β : Type} [DecidableEq α]
    (l : List (α × β)) (k : α) (v : β) : lookupA (insertA l k v) k = some v := by
  induction l with
  | nil => simp [lookupA, insertA]
  | cons p rest ih =>
    by_cases h : p.1 = k <;> simp [lookupA, insertA, h, ih]

/-- Re-updating a key with its current value leaves the list unchanged. -/
theorem insertA_lookupA_self {α β : Type} [DecidableEq α]
    (l : List (α × β)) (k : α) (v : β) (h : lookupA l k = some v) :
    insertA l k v = l := by
  induction l with
  | nil => simp [lookupA] at h
  | cons p rest ih =>
    obtain ⟨a, b⟩ := p
    by_cases hp : a = k
    · subst hp
      simp [lookupA] at h
      simp [insertA, h]
    · simp [lookupA, hp] at h
      simp [insertA, hp, ih h]

/-- Two successive updates to the same key collapse to the second one. -/
theorem insertA_insertA_same {α β : Type} [DecidableEq α]
    (l : List (α × β)) (k : α) (v w : β) :
    insertA (insertA l k v) k w = insertA l k w := by
  induction l with
  | nil => simp [insertA]
  | cons p rest ih =>
    by_cases hp : p.1 = k
    · simp [insertA, hp]
    · simp [insertA, hp, ih]

theorem Heap.get_set_self (h : Heap) (i : Nat) (m : MockObj) :
    (h.set i m).get i = some m := by
  simp [Heap.get, Heap.set, lookupA_insertA_self]

/-- C7 (code_bug): the claim says `Mock(return_value=0)()` returns the
configured `0`.  Evaluating the embedding at that input: the constructor's
`if return_value:` is false for `0`, so nothing is stored, and the call —
whose `hasattr(self, "return_value")` test always succeeds — returns
`self.__dict__.get("return_value")`, i.e. `None`, not `0`. -/
theorem falsy_return_value_ignored :
    (mockCall fenv0 (mkMock Heap.empty .sync .noSpec .none (.int 0) []).1
        (mkMock Heap.empty .sync .noSpec .none (.int 0) []).2 [] []).2
      = Except.ok Value.none
    ∧ Value.none ≠ Value.int 0
    ∧ (mockCall fenv0 (mkMock Heap.empty .sync .noSpec .none (.int 42) []).1
        (mkMock Heap.empty .sync .noSpec .none (.int 42) []).2 [] []).2
      = Except.ok (Value.int 42) :=
  ⟨rfl, by decide, rfl⟩

/-! ### C5 — identity-stable auto-vivification -/

/-- C5 (code_bug): attribute auto-vivification is identity-stable as
claimed (the second read of `m.foo` returns the same child and leaves the
heap unchanged), but the call half of the claim fails: with neither
`return_value` nor `side_effect` configured, invocation returns `None` on
every call instead of a cached child mock, because
`hasattr(self, "return_value")` is always true (`__getattr__` returns
`self.__dict__.get(name)` for reserved names), making the child-creating
branch of `__call__` unreachable. -/
theorem auto_child_call_identity_broken :
    (let p := mkMock Heap.empty .sync .noSpec .none .none []
     let g1 := mockGetattr p.1 p.2 "foo"
     let g2 := mockGetattr g1.1 p.2 "foo"
     g1.2 = Except.ok (Value.ref 1) ∧ g2.2 = Except.ok (Value.ref 1) ∧
       g2.1 = g1.1)
    ∧ (let p := mkMock Heap.empty .sync .noSpec .none .none []
       let c1 := mockCall fenv0 p.1 p.2 [] []
       let c2 := mockCall fenv0 c1.1 p.2 [] []
       c1.2 = Except.ok Value.none ∧ c2.2 = Except.ok Value.none)
    ∧ (let p := mkMock Heap.empty .async .noSpec .none .none []
       (mockCall fenv0 p.1 p.2 [] []).2 = Except.ok Value.none) :=
  ⟨⟨rfl, rfl, rfl⟩, ⟨rfl, rfl⟩, rfl⟩

/-! ### C9 — reported class under an instance spec -/

/-- C9 (code_bug): the claim (and the constructor docstring, and the
repository's own test) says a `Mock` built from an instance spec reports
the instance's class through `__class__`; but `umock.py` contains no
assignment to `__class__`, so the mock constructed from an instance of
`TestClass` still reports the `Mock` class and isinstance-style checks
against `TestClass` fail. -/
theorem spec_instance_reported_type_unchanged :
    (let p := mkMock Heap.empty .sync (.fromObj "TestClass" true ["x", "y"])
        .none .none []
     (p.1.get p.2).map MockObj.reportedType = some PyType.mockType)
    ∧ PyType.mockType ≠ PyType.userType "TestClass" :=
  ⟨rfl, by decide⟩

/-! ### C6 — iterable side-effect exhaustion -/

/-- C6 (counterexample): the claim says the fourth invocation of
`Mock(side_effect=[1,2,3])` fails with a RuntimeError-kind exhaustion
error; in the synchronous `Mock.__call__` the `StopIteration` raised by
`next(...)` propagates unconverted (the repository's own test asserts
`raises(StopIteration)`), so the error kind is `stopIteration`, not
`runtimeError`. -/
theorem sync_exhaustion_not_runtime_error :
    (let p := mkMock Heap.empty .sync .noSpec
        (.list [.int 1, .int 2, .int 3]) .none []
     let s1 := mockCall fenv0 p.1 p.2 [] []
     let s2 := mockCall fenv0 s1.1 p.2 [] []
     let s3 := mockCall fenv0 s2.1 p.2 [] []
     (mockCall fenv0 s3.1 p.2 [] []).2
       = Except.error ⟨.stopIteration, ""⟩)
    ∧ ErrKind.stopIteration ≠ ErrKind.runtimeError :=
  ⟨rfl, by decide⟩

/-- C6 (amended): `Mock(side_effect=[1,2,3])` returns `1, 2, 3` on the
first three invocations; the fourth fails with an iterator-exhaustion
error whose form depends on the class: a plain `StopIteration` escaping
the synchronous call, and for `AsyncMock` a `RuntimeError` whose message
`"coroutine raised StopIteration"` marks the exhaustion as happening
inside a suspended call (PEP 479 conversion, as the repository's async
test asserts). -/
theorem side_effect_exhaustion_behaviour :
    (let p := mkMock Heap.empty .sync .noSpec
        (.list [.int 1, .int 2, .int 3]) .none []
     let s1 := mockCall fenv0 p.1 p.2 [] []
     let s2 := mockCall fenv0 s1.1 p.2 [] []
     let s3 := mockCall fenv0 s2.1 p.2 [] []
     s1.2 = Except.ok (Value.int 1) ∧ s2.2 = Except.ok (Value.int 2) ∧
       s3.2 = Except.ok (Value.int 3) ∧
       (mockCall fenv0 s3.1 p.2 [] []).2 = Except.error ⟨.stopIteration, ""⟩)
    ∧ (let p := mkMock Heap.empty .async .noSpec
        (.list [.int 1, .int 2, .int 3]) .none []
       let s1 := mockCall fenv0 p.1 p.2 [] []
       let s2 := mockCall fenv0 s1.1 p.2 [] []
       let s3 := mockCall fenv0 s2.1 p.2 [] []
       s1.2 = Except.ok (Value.int 1) ∧ s2.2 = Except.ok (Value.int 2) ∧
         s3.2 = Except.ok (Value.int 3) ∧
         (mockCall fenv0 s3.1 p.2 [] []).2
           = Except.error ⟨.runtimeError, "coroutine raised StopIteration"⟩) :=
  ⟨⟨rfl, rfl, rfl, rfl⟩, ⟨rfl, rfl, rfl, rfl⟩⟩

/-! ### C4 — attribute writes under a spec -/

/-- C4 (counterexample): the claim says assigning a plain name outside an
active spec fails with an AttributeError; but `Mock` defines no
`__setattr__`, so the assignment `mock.baz = 7` on
`Mock(spec=["foo", "bar"])` simply stores the value, and the subsequent
read returns it (the repository's own test asserts exactly this), while a
read of a different non-spec name still fails — reads, not writes, are
gated by the spec. -/
theorem spec_write_gate_counterexample :
    (let p := mkMock Heap.empty .sync (.names ["foo", "bar"]) .none .none []
     let s := mockSetattr p.1 p.2 "baz" (.int 7)
     s.2 = Except.ok ()
       ∧ (mockGetattr s.1 p.2 "baz").2 = Except.ok (Value.int 7)
       ∧ (mockGetattr s.1 p.2 "qux").2
           = Except.error ⟨.attributeError, "Mock object has no attribute."⟩) :=
  ⟨rfl, rfl, rfl⟩

/-! ### C3 — unconditional invocation logging -/

/-- `hasattr(self, name)` is true for every reserved/underscore name:
`__getattr__` returns `self.__dict__.get(name)` there, never raising. -/
theorem hasattrReserved_true (m : MockObj) (name : String) :
    m.hasattrReserved name = true := rfl

/-- One invocation appends exactly the entry `(args, kwargs)` to the log,
whatever the configuration and whether or not the result is an error. -/
theorem mockCall_get (fenv : FEnv) (h : Heap) (i : Nat) (m : MockObj)
    (hm : h.get i = some m) (args : List Value)
    (kwargs : List (String × Value)) :
    ∃ m', (mockCall fenv h i args kwargs).1.get i = some m'
      ∧ m'.calls = m.calls ++ [{ args := args, kwargs := kwargs }] := by
  cases hse : m.sideEffect with
  | none =>
    simp only [mockCall, hm, hse, MockObj.hasattrReserved,
      MockObj.getattrReserved, isOkE, if_true]
    exact ⟨_, Heap.get_set_self .., by simp⟩
  | some se =>
    cases se with
    | iter rest =>
      cases rest with
      | nil =>
        simp only [mockCall, hm, hse]
        exact ⟨_, Heap.get_set_self .., by simp⟩
      | cons v vs =>
        simp only [mockCall, hm, hse]
        exact ⟨_, Heap.get_set_self .., by simp⟩
    | none =>
      simp only [mockCall, hm, hse]
      exact ⟨_, Heap.get_set_self .., by simp⟩
    | int n =>
      simp only [mockCall, hm, hse]
      exact ⟨_, Heap.get_set_self .., by simp⟩
    | str s =>
      simp only [mockCall, hm, hse]
      exact ⟨_, Heap.get_set_self .., by simp⟩
    | bool b =>
      simp only [mockCall, hm, hse]
      exact ⟨_, Heap.get_set_self .., by simp⟩
    | ref j =>
      simp only [mockCall, hm, hse]
      exact ⟨_, Heap.get_set_self .., by simp⟩
    | excType k =>
      simp only [mockCall, hm, hse]
      exact ⟨_, Heap.get_set_self .., by simp⟩
    | exc k msg =>
      simp only [mockCall, hm, hse]
      exact ⟨_, Heap.get_set_self .., by simp⟩
    | list vs =>
      simp only [mockCall, hm, hse]
      exact ⟨_, Heap.get_set_self .., by simp⟩
    | fn fid =>
      simp only [mockCall, hm, hse]
      exact ⟨_, Heap.get_set_self .., by simp⟩

/-- Calls accumulate: after a sequence of invocations the log length has
grown by the number of invocations. -/
theorem runCalls_callCount (fenv : FEnv) (i : Nat)
    (seq : List (List Value × List (String × Value))) :
    ∀ (h : Heap) (m : MockObj), h.get i = some m →
      Heap.callCount (runCalls fenv h i seq) i
        = some (m.calls.length + seq.length) := by
  induction seq with
  | nil =>
    intro h m hm
    simp [runCalls, Heap.callCount, hm]
  | cons p rest ih =>
    intro h m hm
    obtain ⟨m', hm', hc⟩ := mockCall_get fenv h i m hm p.1 p.2
    have hstep := ih _ _ hm'
    obtain ⟨a, k⟩ := p
    simp only [runCalls]
    rw [hstep, hc]
    simp
    omega

/-- C3 (confirmed): every invocation of a `Mock` or `AsyncMock` appends
exactly one entry `(args, kwargs)` to the invocation log — the append
happens before any result or side-effect dispatch, so it is there even
when the invocation raises — and consequently, after a reset, `call_count`
(resp. `await_count`) equals the number of invocations made since; the
log only ever grows by those single entries, shrinking only on explicit
reset. -/
theorem invocation_logging_and_count (fenv : FEnv) (h : Heap) (i : Nat)
    (m : MockObj) (hm : h.get i = some m) (args : List Value)
    (kwargs : List (String × Value))
    (seq : List (List Value × List (String × Value))) :
    (∃ m', (mockCall fenv h i args kwargs).1.get i = some m'
        ∧ m'.calls = m.calls ++ [{ args := args, kwargs := kwargs }])
    ∧ Heap.callCount (runCalls fenv (mockReset h i) i seq) i
        = some seq.length := by
  constructor
  · exact mockCall_get fenv h i m hm args kwargs
  · have hr : (mockReset h i).get i = some { m with calls := [] } := by
      simp [mockReset, hm, Heap.get_set_self]
    have := runCalls_callCount fenv i seq (mockReset h i) _ hr
    simpa using this

/-- C3 witness: a concrete mock, one logged raising-free call and a
two-invocation sequence after reset. -/
theorem invocation_logging_and_count_witness :
    (∃ m', (mockCall fenv0 (mkMock Heap.empty .sync .noSpec .none .none []).1
          0 [Value.int 1] []).1.get 0 = some m'
        ∧ m'.calls = (newMockObj .sync).calls
            ++ [{ args := [Value.int 1], kwargs := [] }])
    ∧ Heap.callCount
        (runCalls fenv0
          (mockReset (mkMock Heap.empty .sync .noSpec .none .none []).1 0) 0
          [([], []), ([Value.int 2], [])]) 0
        = some 2 :=
  invocation_logging_and_count fenv0
    (mkMock Heap.empty .sync .noSpec .none .none []).1 0 (newMockObj .sync)
    rfl [Value.int 1] [] [([], []), ([Value.int 2], [])]

/-! ### C4 — attribute writes always store -/

/-- Reading back a name just stored in the instance dictionary yields the
stored value, for every name category. -/
theorem dictGet_dictSet_self (m : MockObj) (name : String) (v : Value) :
    (m.dictSet name v).dictGet name = some v := by
  by_cases h1 : name = "side_effect"
  · simp [MockObj.dictGet, MockObj.dictSet, h1]
  · by_cases h2 : name = "return_value"
    · simp [MockObj.dictGet, MockObj.dictSet, h1, h2]
    · by_cases h3 : name = "_mock_value"
      · simp [MockObj.dictGet, MockObj.dictSet, h1, h2, h3]
      · simp [MockObj.dictGet, MockObj.dictSet, h1, h2, h3,
          lookupA_insertA_self]

/-- C4 (amended): attribute assignment on a `Mock`/`AsyncMock` is not
gated by the spec: for every name that is not one of the class's
getter-only property names, the write stores the value directly into the
instance dictionary — reserved/internal names and spec members included —
and a subsequent read of the written name returns the stored value.  Only
the getter-only property names reject assignment, with an AttributeError
arising from Python's data-descriptor rule, independent of any spec. -/
theorem attribute_write_ungated_by_spec (h : Heap) (i : Nat) (m : MockObj)
    (hm : h.get i = some m) (name : String) (v : Value)
    (hprop : name ∉ propertyNames m.kind) :
    mockSetattr h i name v = (h.set i (m.dictSet name v), Except.ok ())
    ∧ (mockGetattr (mockSetattr h i name v).1 i name).2 = Except.ok v
    ∧ ∀ pname, pname ∈ propertyNames m.kind →
        (mockSetattr h i pname v).2
          = Except.error ⟨.attributeError, "property has no setter"⟩ := by
  have hset : mockSetattr h i name v = (h.set i (m.dictSet name v), Except.ok ()) := by
    simp [mockSetattr, hm, hprop]
  have hget : (mockSetattr h i name v).1.get i = some (m.dictSet name v) := by
    rw [hset]
    exact Heap.get_set_self ..
  refine ⟨hset, ?_, ?_⟩
  · by_cases hir : (isInternalName name || isReservedName name) = true
    · simp only [mockGetattr, hget, hir, if_true]
      simp [dictGet_dictSet_self]
    · have hni : isInternalName name = false := by
        cases hi : isInternalName name <;> simp [hi] at hir ⊢
      have hnr : isReservedName name = false := by
        cases hr : isReservedName name <;> simp [hr] at hir ⊢
      have h1 : name ≠ "side_effect" := by
        intro e
        rw [e] at hnr
        simp [isReservedName] at hnr
      have h2 : name ≠ "return_value" := by
        intro e
        rw [e] at hnr
        simp [isReservedName] at hnr
      have h3 : name ≠ "_mock_value" := by
        intro e
        rw [e] at hni
        simp [isInternalName] at hni
      have hattrs : (m.dictSet name v).attrs = insertA m.attrs name v := by
        simp [MockObj.dictSet, h1, h2, h3]
      simp only [mockGetattr, hget, hir, if_false, Bool.false_eq_true]
      rw [hattrs, lookupA_insertA_self]
  · intro pname hp
    simp [mockSetattr, hm, hp]

/-- C4 amended witness: on `Mock(spec=["foo", "bar"])`, writing the plain
non-spec, non-property name `baz` stores and reads back `7`, while every
getter-only property name rejects assignment. -/
theorem attribute_write_ungated_by_spec_witness :
    mockSetattr (mkMock Heap.empty .sync (.names ["foo", "bar"]) .none
        .none []).1 2 "baz" (.int 7)
      = ((mkMock Heap.empty .sync (.names ["foo", "bar"]) .none .none []).1.set 2
          ((({ newMockObj .sync with
              spec := some ["foo", "bar"],
              attrs := [("foo", Value.ref 0), ("bar", Value.ref 1)] } :
                MockObj)).dictSet "baz" (.int 7)), Except.ok ())
    ∧ (mockGetattr (mockSetattr (mkMock Heap.empty .sync
        (.names ["foo", "bar"]) .none .none []).1 2 "baz" (.int 7)).1 2
          "baz").2 = Except.ok (Value.int 7)
    ∧ ∀ pname, pname ∈ propertyNames
        ({ newMockObj .sync with
            spec := some ["foo", "bar"],
            attrs := [("foo", Value.ref 0), ("bar", Value.ref 1)] } :
              MockObj).kind →
        (mockSetattr (mkMock Heap.empty .sync (.names ["foo", "bar"]) .none
            .none []).1 2 pname (.int 7)).2
          = Except.error ⟨.attributeError, "property has no setter"⟩ :=
  attribute_write_ungated_by_spec
    (mkMock Heap.empty .sync (.names ["foo", "bar"]) .none .none []).1 2
    ({ newMockObj .sync with
        spec := some ["foo", "bar"],
        attrs := [("foo", Value.ref 0), ("bar", Value.ref 1)] } : MockObj)
    rfl "baz" (.int 7) (by decide)

/-! ### C8 — `assert_has_calls` semantics -/

/-- The positional loop of `assert_has_calls` succeeds exactly when the
expected entries match the log at indices `0 .. len-1`. -/
theorem prefix_all_iff (log calls : List CallEntry)
    (hlen : calls.length ≤ log.length) :
    (calls.enum.all fun ic =>
        decide (log.getD ic.1 (⟨[], []⟩ : CallEntry) = ic.2)) = true
      ↔ ∀ i, i < calls.length → calls[i]? = log[i]? := by
  rw [List.all_eq_true]
  constructor
  · intro H i hi
    have hi' : i < log.length := lt_of_lt_of_le hi hlen
    have hmem : (i, calls[i]) ∈ calls.enum := by
      rw [List.mem_enum_iff_getElem?]
      exact List.getElem?_eq_getElem hi
    have hd := H _ hmem
    rw [decide_eq_true_eq] at hd
    rw [List.getElem?_eq_getElem hi, List.getElem?_eq_getElem hi']
    rw [List.getD_eq_getElem?_getD, List.getElem?_eq_getElem hi'] at hd
    simp only [Option.getD_some] at hd
    rw [hd]
  · intro H x hx
    rw [List.mem_enum_iff_getElem?] at hx
    have hi : x.1 < calls.length := (List.getElem?_eq_some.mp hx).choose
    have hq := H x.1 hi
    rw [hx] at hq
    rw [decide_eq_true_eq, List.getD_eq_getElem?_getD, ← hq]
    rfl

/-- C8 (confirmed): `assert_has_calls(expected, any_order=False)` succeeds
iff the log is at least as long as `expected` and the expected entries
equal the log entries at the same indices `0 .. len(expected)-1` — a
prefix match, not a subsequence search; with `any_order=True` it succeeds
iff the log is at least as long and every expected entry is a member of
the log, with no ordering or multiplicity requirement. -/
theorem assert_has_calls_charn (log calls : List CallEntry) :
    (isOkE (assertHasCalls log calls false) = true ↔
      calls.length ≤ log.length
        ∧ ∀ i, i < calls.length → calls[i]? = log[i]?)
    ∧ (isOkE (assertHasCalls log calls true) = true ↔
      calls.length ≤ log.length ∧ ∀ c ∈ calls, c ∈ log) := by
  constructor
  · unfold assertHasCalls
    by_cases hlen : calls.length ≤ log.length
    · rw [if_pos hlen]
      simp only [Bool.false_eq_true, if_false]
      by_cases hall : (calls.enum.all fun ic =>
          decide (log.getD ic.1 (⟨[], []⟩ : CallEntry) = ic.2)) = true
      · rw [if_pos hall]
        simp only [isOkE, true_iff]
        exact ⟨hlen, (prefix_all_iff log calls hlen).mp hall⟩
      · rw [if_neg hall]
        simp only [isOkE, Bool.false_eq_true, false_iff, not_and]
        intro _ H
        exact hall ((prefix_all_iff log calls hlen).mpr H)
    · rw [if_neg hlen]
      simp [isOkE, hlen]
  · unfold assertHasCalls
    by_cases hlen : calls.length ≤ log.length
    · rw [if_pos hlen]
      simp only [if_true]
      by_cases hall : (calls.all fun c => decide (c ∈ log)) = true
      · rw [if_pos hall]
        rw [List.all_eq_true] at hall
        simp only [isOkE, true_iff]
        exact ⟨hlen, fun c hc => of_decide_eq_true (hall c hc)⟩
      · rw [if_neg hall]
        simp only [isOkE, Bool.false_eq_true, false_iff, not_and]
        intro _ H
        apply hall
        rw [List.all_eq_true]
        exact fun c hc => decide_eq_true (H c hc)
    · rw [if_neg hlen]
      simp [isOkE, hlen]

/-! ### C10 — eager spec children are synchronous Mocks -/

/-- Splitting the attribute traversal at the last segment: walking the
whole chain is walking the prefix and then one final `getattr`, the shape
`patch_target` uses. -/
theorem traverseChain_dropLast (reg : Registry) (v : PVal)
    (chain : List String) (hne : chain ≠ []) :
    traverseChain reg v chain
      = match traverseChain reg v chain.dropLast with
        | .ok p => getattrR reg p (chain.getLastD "")
        | .error e => .error e := by
  induction chain generalizing v with
  | nil => exact absurd rfl hne
  | cons a rest ih =>
    cases rest with
    | nil =>
      have h1 : ([a] : List String).dropLast = [] := rfl
      have h2 : ([a] : List String).getLastD "" = a := rfl
      rw [h1, h2]
      simp only [traverseChain]
      cases hg : getattrR reg v a <;> simp [traverseChain, hg]
    | cons b rest' =>
      have hdl : (a :: b :: rest').dropLast = a :: (b :: rest').dropLast := by
        simp [List.dropLast]
      have hgl : (a :: b :: rest').getLastD "" = (b :: rest').getLastD "" := by
        simp [List.getLastD]
      rw [hdl, hgl]
      simp only [traverseChain]
      cases hg : getattrR reg v a with
      | ok v' => exact ih v' (by simp)
      | error e => simp

/-- First `patch_target` call on a colon-form target: captures the old
binding and updates exactly the parent object's entry for the last
segment. -/
theorem patchTarget_attr_first (reg : Registry) (mp : String)
    (chain : List String) (repl pv : PVal) (pid : Nat) (pobj : PObj)
    (old : PVal)
    (hm : lookupA reg.sysModules mp = some pv) (ht : pv.truthy = true)
    (htrav : traverseChain reg pv chain.dropLast = .ok (.obj pid))
    (hobj : lookupA reg.heap pid = some pobj)
    (hold : lookupA pobj.attrs (chain.getLastD "") = some old) :
    patchTarget reg (.attr mp chain) repl
      = (reg.patchAt pid pobj (chain.getLastD "") repl, .ok old) := by
  simp only [patchTarget, acquireModule, hm, ht, if_true, htrav, getattrR,
    hobj, hold, setattrR, Registry.patchAt]

/-- Undoing `patch_target` on a colon-form target: provided the prefix
traversal still reaches the same parent in the patched state, the second
call re-installs the captured value and returns the registry to exactly
its original state. -/
theorem patchTarget_attr_roundtrip (reg : Registry) (mp : String)
    (chain : List String) (repl pv : PVal) (pid : Nat) (pobj : PObj)
    (old : PVal)
    (hm : lookupA reg.sysModules mp = some pv) (ht : pv.truthy = true)
    (hobj : lookupA reg.heap pid = some pobj)
    (hold : lookupA pobj.attrs (chain.getLastD "") = some old)
    (hstable : traverseChain (reg.patchAt pid pobj (chain.getLastD "") repl)
        pv chain.dropLast = .ok (.obj pid)) :
    patchTarget (reg.patchAt pid pobj (chain.getLastD "") repl)
      (.attr mp chain) old = (reg, .ok repl) := by
  have hm2 : lookupA (reg.patchAt pid pobj (chain.getLastD "") repl).sysModules
      mp = some pv := hm
  have hobj2 : lookupA (reg.patchAt pid pobj (chain.getLastD "") repl).heap pid
      = some { pobj with attrs := insertA pobj.attrs (chain.getLastD "") repl } :=
    lookupA_insertA_self ..
  have hold2 : lookupA (insertA pobj.attrs (chain.getLastD "") repl)
      (chain.getLastD "") = some repl := lookupA_insertA_self ..
  simp only [patchTarget, acquireModule, hm2, ht, if_true, hstable, getattrR,
    hobj2, hold2, setattrR]
  have hattrs : insertA (insertA pobj.attrs (chain.getLastD "") repl)
      (chain.getLastD "") old = pobj.attrs := by
    rw [insertA_insertA_same]
    exact insertA_lookupA_self _ _ _ hold
  rw [hattrs]
  have hheap : insertA (reg.patchAt pid pobj (chain.getLastD "") repl).heap pid
      { pobj with attrs := pobj.attrs } = reg.heap := by
    have he : ({ pobj with attrs := pobj.attrs } : PObj) = pobj := rfl
    rw [he]
    show insertA (insertA reg.heap pid _) pid pobj = reg.heap
    rw [insertA_insertA_same]
    exact insertA_lookupA_self _ _ _ hobj
  rw [hheap]
  rfl

/-- Undoing `patch_target` on a module-form target always restores the
binding, and re-resolution before and after the round trip gives the same
module object. -/
theorem patchTarget_module_roundtrip (reg : Registry) (path : String)
    (repl : PVal) (reg2 : Registry) (old : PVal)
    (hfirst : patchTarget reg (.module path) repl = (reg2, .ok old)) :
    ∃ reg3, patchTarget reg2 (.module path) old = (reg3, .ok repl)
      ∧ lookupA reg3.sysModules path = some old
      ∧ reg3.heap = reg.heap
      ∧ resolveValue reg3 (.module path) = .ok old
      ∧ resolveValue reg (.module path) = .ok old := by
  cases hl : lookupA reg.sysModules path with
  | some old0 =>
    simp only [patchTarget, hl, Prod.mk.injEq] at hfirst
    obtain ⟨h1, h2⟩ := hfirst
    rw [Except.ok.injEq] at h2
    subst h2
    subst h1
    have hl2 : lookupA
        ({ reg with sysModules := insertA reg.sysModules path repl } :
          Registry).sysModules path = some repl := lookupA_insertA_self ..
    have hl3 : lookupA (insertA (insertA reg.sysModules path repl) path old0)
        path = some old0 := lookupA_insertA_self ..
    refine ⟨{ reg with sysModules := insertA (insertA reg.sysModules path repl) path old0 }, ?_, hl3, rfl, ?_, ?_⟩
    · simp only [patchTarget]
      rw [hl2]
    · simp only [resolveValue]
      rw [hl3]
    · simp only [resolveValue, hl]
  | none =>
    cases him : lookupA reg.importable path with
    | some oid =>
      simp only [patchTarget, hl, importModule, him, Prod.mk.injEq] at hfirst
      obtain ⟨h1, h2⟩ := hfirst
      rw [Except.ok.injEq] at h2
      subst h2
      subst h1
      have hl2 : lookupA
          ({ reg with sysModules := insertA (insertA reg.sysModules path (.obj oid)) path repl } :
            Registry).sysModules path = some repl := lookupA_insertA_self ..
      have hl3 : lookupA (insertA (insertA (insertA reg.sysModules path
          (.obj oid)) path repl) path (.obj oid)) path
          = some (PVal.obj oid) := lookupA_insertA_self ..
      refine ⟨{ reg with sysModules := insertA (insertA (insertA reg.sysModules path (.obj oid)) path repl) path (.obj oid) }, ?_, hl3, rfl, ?_, ?_⟩
      · simp only [patchTarget]
        rw [hl2]
      · simp only [resolveValue]
        rw [hl3]
      · simp only [resolveValue, hl, importModule, him]
    | none =>
      simp only [patchTarget, hl, importModule, him, Prod.mk.injEq] at hfirst
      exact absurd hfirst.2 (by simp)

/-- Resolving a colon-form target whose module is registered and whose
chain reaches an existing attribute yields that attribute's value. -/
theorem resolveValue_attr (reg : Registry) (mp : String) (chain : List String)
    (pv : PVal) (pid : Nat) (pobj : PObj) (old : PVal) (hne : chain ≠ [])
    (hm : lookupA reg.sysModules mp = some pv) (ht : pv.truthy = true)
    (htrav : traverseChain reg pv chain.dropLast = .ok (.obj pid))
    (hobj : lookupA reg.heap pid = some pobj)
    (hold : lookupA pobj.attrs (chain.getLastD "") = some old) :
    resolveValue reg (.attr mp chain) = .ok old := by
  simp only [resolveValue, acquireModule, hm, ht, if_true]
  rw [traverseChain_dropLast reg pv chain hne, htrav]
  simp only [getattrR, hobj, hold]

/-! ### C2 — `patch_target` round trip, counterexample -/

/-- C2 (counterexample): take a module `m` whose attribute `a` is the
module itself (`sys.modules = {"m": obj 0}`, `obj 0 = {a: obj 0}`) and the
target `"m:a.a"`.  `patch_target` succeeds and returns the module object,
but the attribute chain of the second, undoing call now traverses the
patched binding: `getattr(m, "a")` yields the installed `42`, whose `"a"`
lookup raises `AttributeError`.  The round trip therefore fails, the
binding is left patched (`m.a = 42`), and re-resolving the path no longer
yields the pre-patch object. -/
theorem patch_target_roundtrip_counterexample :
    (let reg : Registry :=
       { heap := [(0, { attrs := [("a", PVal.obj 0)] })], next := 1,
         sysModules := [("m", PVal.obj 0)], importable := [] }
     let t : Target := .attr "m" ["a", "a"]
     let first := patchTarget reg t (.int 42)
     resolveValue reg t = Except.ok (PVal.obj 0)
       ∧ first.2 = Except.ok (PVal.obj 0)
       ∧ (patchTarget first.1 t (.obj 0)).2
           = Except.error ⟨.attributeError, "object has no attribute"⟩
       ∧ (patchTarget first.1 t (.obj 0)).1.heap
           = [(0, { attrs := [("a", PVal.int 42)] })]
       ∧ isOkE (resolveValue (patchTarget first.1 t (.obj 0)).1 t) = false) :=
  ⟨rfl, rfl, rfl, rfl, rfl⟩

/-- C2 (amended): `patch_target(path, new)` followed by
`patch_target(path, previous_value)` restores the original binding —
unconditionally for the no-colon module form, and for the colon form
provided the attribute-chain prefix still reaches the same parent object
in the patched state (which holds in particular for single-segment chains
and whenever the prefix does not traverse the patched binding itself).
Under that proviso the module form restores the registered module and its
re-resolution, and the colon form returns the registry to exactly its
original state, so re-resolving the path yields an object identical to
the pre-patch one. -/
theorem patch_target_roundtrip_amended :
    (∀ (reg : Registry) (path : String) (repl : PVal) (reg2 : Registry)
        (old : PVal),
      patchTarget reg (.module path) repl = (reg2, .ok old) →
      ∃ reg3, patchTarget reg2 (.module path) old = (reg3, .ok repl)
        ∧ lookupA reg3.sysModules path = some old
        ∧ resolveValue reg3 (.module path) = .ok old
        ∧ resolveValue reg (.module path) = .ok old)
    ∧ (∀ (reg : Registry) (mp : String) (chain : List String)
        (repl pv : PVal) (pid : Nat) (pobj : PObj) (old : PVal),
      chain ≠ [] →
      lookupA reg.sysModules mp = some pv → pv.truthy = true →
      traverseChain reg pv chain.dropLast = .ok (.obj pid) →
      lookupA reg.heap pid = some pobj →
      lookupA pobj.attrs (chain.getLastD "") = some old →
      traverseChain (reg.patchAt pid pobj (chain.getLastD "") repl) pv
          chain.dropLast = .ok (.obj pid) →
      patchTarget reg (.attr mp chain) repl
          = (reg.patchAt pid pobj (chain.getLastD "") repl, .ok old)
        ∧ patchTarget (reg.patchAt pid pobj (chain.getLastD "") repl)
            (.attr mp chain) old = (reg, .ok repl)
        ∧ resolveValue reg (.attr mp chain) = .ok old) := by
  constructor
  · intro reg path repl reg2 old hfirst
    obtain ⟨reg3, hsec, hbind, _, hres3, hres⟩ :=
      patchTarget_module_roundtrip reg path repl reg2 old hfirst
    exact ⟨reg3, hsec, hbind, hres3, hres⟩
  · intro reg mp chain repl pv pid pobj old hne hm ht htrav hobj hold hstable
    refine ⟨?_, ?_, ?_⟩
    · exact patchTarget_attr_first reg mp chain repl pv pid pobj old hm ht
        htrav hobj hold
    · exact patchTarget_attr_roundtrip reg mp chain repl pv pid pobj old hm ht
        hobj hold hstable
    · exact resolveValue_attr reg mp chain pv pid pobj old hne hm ht htrav
        hobj hold

/-- C2 amended witness: a module binding round trip (module path `m`
bound to `5`, patched with `9`) and a colon-form round trip (`m:f`,
`m.f = 3` patched with `9`) at concrete registries. -/
theorem patch_target_roundtrip_amended_witness :
    (∃ reg3, patchTarget regMod9 (.module "m") (.int 5) = (reg3, .ok (.int 9))
      ∧ lookupA reg3.sysModules "m" = some (.int 5)
      ∧ resolveValue reg3 (.module "m") = .ok (.int 5)
      ∧ resolveValue regMod5 (.module "m") = .ok (.int 5))
    ∧ (patchTarget regMF3 (.attr "m" ["f"]) (.int 9)
          = (regMF3.patchAt 0 pobjF3 "f" (.int 9), .ok (.int 3))
      ∧ patchTarget (regMF3.patchAt 0 pobjF3 "f" (.int 9))
            (.attr "m" ["f"]) (.int 3)
          = (regMF3, .ok (.int 9))
      ∧ resolveValue regMF3 (.attr "m" ["f"]) = .ok (.int 3)) :=
  ⟨patch_target_roundtrip_amended.1 regMod5 "m" (.int 9) _ _ rfl,
    patch_target_roundtrip_amended.2 regMF3 "m" ["f"] (.int 9) (.obj 0) 0
      pobjF3 (.int 3) (by simp) rfl rfl rfl rfl rfl rfl⟩

/-! ### C1 — the decorator activates, passes the replacement, restores -/

/-- C1 (counterexample): the claim promises restoration of the original
binding on every exit path for every target path, but the decorator's
deactivation goes through `patch_target`, which is not total: with module
`m` whose attribute `a` is the module itself and target `"m:a.a"` patched
with `42`, the restoring call inside `__exit__` traverses the patched
binding, `getattr(42, "a")` raises `AttributeError`, the wrapped
function's result is displaced by that exception and the binding is left
patched (`m.a = 42`), so re-resolving the path fails. -/
theorem patch_decorator_restore_counterexample :
    (let reg : Registry :=
       { heap := [(0, { attrs := [("a", PVal.obj 0)] })], next := 1,
         sysModules := [("m", PVal.obj 0)], importable := [] }
     let p : PatchSpec :=
       { target := .attr "m" ["a", "a"], new := .int 42, kwargs := [] }
     let w := patchWrapper reg p (fun _ => Except.ok PVal.none) []
     w.2 = Except.error ⟨.attributeError, "object has no attribute"⟩
       ∧ lookupA w.1.heap 0 = some { attrs := [("a", PVal.int 42)] }
       ∧ isOkE (resolveValue w.1 (.attr "m" ["a", "a"])) = false) :=
  ⟨rfl, rfl, rfl⟩

/-- C1 (amended): invoking a `patch`-decorated function activates the
patch, calls the wrapped function with the installed replacement appended
to its positional arguments and runs deactivation on every exit path: the
wrapper's result is exactly `func (args ++ [new])` — an exception from
`func` propagates unchanged — while the target binding is restored to the
value it resolved to before activation, provided activation resolves the
target and, for the colon form, the attribute-chain prefix still reaches
the same parent in the patched state (always true for module targets and
single-segment chains, and whenever the prefix does not traverse the
patched binding). -/
theorem patch_decorator_scoped_restore :
    (∀ (reg : Registry) (p : PatchSpec)
        (func : List PVal → Except PyError PVal) (args : List PVal)
        (path : String) (reg1 : Registry) (newV : PVal) (reg2 : Registry)
        (old : PVal),
      p.target = .module path →
      patchEnterNew reg p = (reg1, newV) →
      patchTarget reg1 (.module path) newV = (reg2, .ok old) →
      ∃ regF, patchWrapper reg p func args = (regF, func (args ++ [newV]))
        ∧ lookupA regF.sysModules path = some old
        ∧ resolveValue regF (.module path) = .ok old
        ∧ resolveValue reg1 (.module path) = .ok old)
    ∧ (∀ (reg : Registry) (p : PatchSpec)
        (func : List PVal → Except PyError PVal) (args : List PVal)
        (mp : String) (chain : List String) (reg1 : Registry)
        (newV pv : PVal) (pid : Nat) (pobj : PObj) (old : PVal),
      p.target = .attr mp chain → chain ≠ [] →
      patchEnterNew reg p = (reg1, newV) →
      lookupA reg1.sysModules mp = some pv → pv.truthy = true →
      traverseChain reg1 pv chain.dropLast = .ok (.obj pid) →
      lookupA reg1.heap pid = some pobj →
      lookupA pobj.attrs (chain.getLastD "") = some old →
      traverseChain (reg1.patchAt pid pobj (chain.getLastD "") newV) pv
          chain.dropLast = .ok (.obj pid) →
      patchWrapper reg p func args = (reg1, func (args ++ [newV]))
        ∧ resolveValue reg1 (.attr mp chain) = .ok old) := by
  constructor
  · intro reg p func args path reg1 newV reg2 old htgt henter hfirst
    obtain ⟨reg3, hsec, hbind, _, hres3, hres1⟩ :=
      patchTarget_module_roundtrip reg1 path newV reg2 old hfirst
    refine ⟨reg3, ?_, hbind, hres3, hres1⟩
    simp only [patchWrapper, henter, htgt, hfirst, hsec]
  · intro reg p func args mp chain reg1 newV pv pid pobj old htgt hne henter
      hm ht htrav hobj hold hstable
    have hfirst := patchTarget_attr_first reg1 mp chain newV pv pid pobj old
      hm ht htrav hobj hold
    have hsec := patchTarget_attr_roundtrip reg1 mp chain newV pv pid pobj old
      hm ht hobj hold hstable
    constructor
    · simp only [patchWrapper, henter, htgt, hfirst, hsec]
    · exact resolveValue_attr reg1 mp chain pv pid pobj old hne hm ht htrav
        hobj hold

/-- C1 witness: a decorator patching `m:f` (originally `3`) with `9`
around a function returning its appended last argument, and one around a
function that raises; in both cases the wrapper returns the function's
outcome and the registry is fully restored. -/
theorem patch_decorator_scoped_restore_witness :
    patchWrapper regMF3 pSpecF9 (fun as => Except.ok (as.getLastD .none)) []
      = (regMF3, Except.ok (PVal.int 9))
    ∧ patchWrapper regMF3 pSpecF9
        (fun _ => Except.error ⟨.runtimeError, "boom"⟩) []
      = (regMF3, Except.error ⟨.runtimeError, "boom"⟩) := by
  constructor
  · exact (patch_decorator_scoped_restore.2 regMF3 pSpecF9
      (fun as => Except.ok (as.getLastD .none)) [] "m" ["f"] _ (.int 9)
      (.obj 0) 0 pobjF3 (.int 3)
      rfl (by simp) rfl rfl rfl rfl rfl rfl rfl).1
  · exact (patch_decorator_scoped_restore.2 regMF3 pSpecF9
      (fun _ => Except.error ⟨.runtimeError, "boom"⟩) [] "m" ["f"] _ (.int 9)
      (.obj 0) 0 pobjF3 (.int 3)
      rfl (by simp) rfl rfl rfl rfl rfl rfl rfl).1

end UMock
